import Mathlib

/-!
Verification development for the device-session orchestration and telemetry
ingestion core of the compression-band monitoring frontend.

The embedding models the monitoring page (its `parseLine` decoder, `clamp`,
the operator handlers `handleCreateSession`, `handleConnect`,
`handleDisconnect`, `handleStart`, `handleStop`, `handleReset`, and one
iteration of `readLoop`) as pure Lean functions over an explicit state
record.  JavaScript numbers are idealised as `ℚ` (NaN and the infinities are
represented by `none` in coercion results; JSON literals cannot produce
them).  React state reads and writes are modelled as immediate updates of the
authoritative state tuple.  Wall-clock timestamps are passed in as explicit
parameters.
-/

set_option maxRecDepth 4096

/-- JSON values as produced by `JSON.parse`.  Numbers are idealised as `ℚ`. -/
inductive Json where
| null : Json
| bool (b : Bool) : Json
| num (q : ℚ) : Json
| str (s : String) : Json
| arr (elems : List Json) : Json
| obj (fields : List (String × Json)) : Json

/-- Opening brace character (written via its code point so that the source
contains no literal brace in strings). -/
def lbrace : Char := Char.ofNat 123

/-- Closing brace character. -/
def rbrace : Char := Char.ofNat 125

/-- Opening bracket character. -/
def lbrack : Char := Char.ofNat 91

/-- Closing bracket character. -/
def rbrack : Char := Char.ofNat 93

/-- Double-quote character. -/
def quoteC : Char := Char.ofNat 34

/-- Backslash character. -/
def backslashC : Char := Char.ofNat 92

/-- JSON insignificant whitespace: space, tab, line feed, carriage return. -/
def isJsonWs (c : Char) : Bool :=
  c = ' ' || c = Char.ofNat 9 || c = Char.ofNat 10 || c = Char.ofNat 13

/-- Drop leading JSON whitespace. -/
def skipWs : List Char → List Char
| [] => []
| c :: cs => if isJsonWs c then skipWs cs else c :: cs

/-- Value of a hexadecimal digit. -/
def hexVal (c : Char) : Option Nat :=
  if c.isDigit then some (c.toNat - 48)
  else if 'a' ≤ c ∧ c ≤ 'f' then some (c.toNat - 87)
  else if 'A' ≤ c ∧ c ≤ 'F' then some (c.toNat - 55)
  else none

/-- Body of a JSON string literal (the opening quote already consumed):
returns the decoded characters and the remaining input.  Escapes are decoded
as in `JSON.parse`; `\\u` takes four hex digits (surrogate pairing is not
re-combined, which no claim depends on). -/
def parseStrChars : List Char → Option (List Char × List Char)
| [] => none
| c :: cs =>
  if c = quoteC then some ([], cs)
  else if c = backslashC then
    match cs with
    | [] => none
    | e :: cs2 =>
      if e = quoteC ∨ e = backslashC ∨ e = '/' then
        match parseStrChars cs2 with
        | some (sc, r) => some (e :: sc, r)
        | none => none
      else if e = 'n' ∨ e = 't' ∨ e = 'r' ∨ e = 'b' ∨ e = 'f' then
        let d : Char :=
          if e = 'n' then Char.ofNat 10
          else if e = 't' then Char.ofNat 9
          else if e = 'r' then Char.ofNat 13
          else if e = 'b' then Char.ofNat 8
          else Char.ofNat 12
        match parseStrChars cs2 with
        | some (sc, r) => some (d :: sc, r)
        | none => none
      else if e = 'u' then
        match cs2 with
        | h1 :: h2 :: h3 :: h4 :: cs3 =>
          match hexVal h1, hexVal h2, hexVal h3, hexVal h4 with
          | some a, some b, some c', some d =>
            match parseStrChars cs3 with
            | some (sc, r) => some (Char.ofNat (((a * 16 + b) * 16 + c') * 16 + d) :: sc, r)
            | none => none
          | _, _, _, _ => none
        | _ => none
      else none
  else
    match parseStrChars cs with
    | some (sc, r) => some (c :: sc, r)
    | none => none
termination_by cs => cs.length
decreasing_by all_goals simp_wf <;> omega

/-- Take a maximal run of decimal digits. -/
def takeDigits : List Char → List Char × List Char
| [] => ([], [])
| c :: cs =>
  if c.isDigit then
    let p := takeDigits cs
    (c :: p.1, p.2)
  else ([], c :: cs)

/-- Decimal digits to a natural number. -/
def digitsToNat (ds : List Char) : Nat :=
  ds.foldl (fun a c => a * 10 + (c.toNat - 48)) 0

/-- Optional fraction part `.digits` (digits required after the dot);
`some (0, cs)` when absent. -/
def parseFrac : List Char → Option (ℚ × List Char)
| [] => some (0, [])
| d :: rr =>
  if d = '.' then
    let p := takeDigits rr
    if p.1.isEmpty then none
    else some ((digitsToNat p.1 : ℚ) / (10 : ℚ) ^ p.1.length, p.2)
  else some (0, d :: rr)

/-- Optional exponent part `e`/`E` with optional sign (digits required);
`some (0, cs)` when absent. -/
def parseExpPart : List Char → Option (ℤ × List Char)
| [] => some (0, [])
| e :: rr =>
  if e = 'e' ∨ e = 'E' then
    let sp : ℤ × List Char :=
      match rr with
      | c :: r2 => if c = '-' then (-1, r2) else if c = '+' then (1, r2) else (1, rr)
      | [] => (1, [])
    let p := takeDigits sp.2
    if p.1.isEmpty then none
    else some (sp.1 * (digitsToNat p.1 : ℤ), p.2)
  else some (0, e :: rr)

/-- JSON number grammar: optional minus, integer part with no leading zeros,
optional fraction and exponent. -/
def parseJNum (cs : List Char) : Option (ℚ × List Char) :=
  let sp : Bool × List Char :=
    match cs with
    | c :: r => if c = '-' then (true, r) else (false, cs)
    | [] => (false, [])
  match sp.2 with
  | [] => none
  | c :: r =>
    if ¬c.isDigit then none
    else
      let ip := takeDigits (c :: r)
      if c = '0' ∧ ip.1.length ≠ 1 then none
      else
        match parseFrac ip.2 with
        | none => none
        | some (fq, r2) =>
          match parseExpPart r2 with
          | none => none
          | some (ex, r3) =>
            let base : ℚ := (digitsToNat ip.1 : ℚ) + fq
            some ((if sp.1 then -base else base) * (10 : ℚ) ^ ex, r3)

mutual

/-- One JSON value, fuelled recursive descent (fuel bounds nesting work;
`jsonParse` supplies enough for every input that the claims evaluate). -/
def parseVal : Nat → List Char → Option (Json × List Char)
| 0, _ => none
| Nat.succ fuel, cs =>
  match skipWs cs with
  | [] => none
  | c :: rest =>
    if c = lbrace then
      match skipWs rest with
      | c2 :: r2 => if c2 = rbrace then some (Json.obj [], r2) else parseObjFields fuel (c2 :: r2) []
      | [] => none
    else if c = lbrack then
      match skipWs rest with
      | c2 :: r2 => if c2 = rbrack then some (Json.arr [], r2) else parseArrElems fuel (c2 :: r2) []
      | [] => none
    else if c = quoteC then
      match parseStrChars rest with
      | some (sc, r) => some (Json.str (String.mk sc), r)
      | none => none
    else if c = 't' then
      match rest with
      | 'r' :: 'u' :: 'e' :: r => some (Json.bool true, r)
      | _ => none
    else if c = 'f' then
      match rest with
      | 'a' :: 'l' :: 's' :: 'e' :: r => some (Json.bool false, r)
      | _ => none
    else if c = 'n' then
      match rest with
      | 'u' :: 'l' :: 'l' :: r => some (Json.null, r)
      | _ => none
    else
      match parseJNum (c :: rest) with
      | some (q, r) => some (Json.num q, r)
      | none => none

/-- Fields of a JSON object after the opening brace (at least one field). -/
def parseObjFields : Nat → List Char → List (String × Json) → Option (Json × List Char)
| 0, _, _ => none
| Nat.succ fuel, cs, acc =>
  match skipWs cs with
  | [] => none
  | c :: rest =>
    if c = quoteC then
      match parseStrChars rest with
      | none => none
      | some (kc, r1) =>
        match skipWs r1 with
        | [] => none
        | c2 :: r2 =>
          if c2 = ':' then
            match parseVal fuel r2 with
            | none => none
            | some (v, r3) =>
              match skipWs r3 with
              | [] => none
              | c3 :: r4 =>
                if c3 = ',' then parseObjFields fuel r4 (acc ++ [(String.mk kc, v)])
                else if c3 = rbrace then some (Json.obj (acc ++ [(String.mk kc, v)]), r4)
                else none
          else none
    else none

/-- Elements of a JSON array after the opening bracket (at least one). -/
def parseArrElems : Nat → List Char → List Json → Option (Json × List Char)
| 0, _, _ => none
| Nat.succ fuel, cs, acc =>
  match parseVal fuel cs with
  | none => none
  | some (v, r1) =>
    match skipWs r1 with
    | [] => none
    | c :: r2 =>
      if c = ',' then parseArrElems fuel r2 (acc ++ [v])
      else if c = rbrack then some (Json.arr (acc ++ [v]), r2)
      else none

end

/-- Model of `JSON.parse`: parse one value and require only whitespace after
it.  A `none` result models the thrown `SyntaxError` (which `parseLine`
catches). -/
def jsonParse (s : String) : Option Json :=
  match parseVal (s.length + 1) s.toList with
  | some (v, rest) => if skipWs rest = [] then some v else none
  | none => none

/-- Property access `obj[k]` on the object built by `JSON.parse`: duplicate
keys are overwritten in order, so the last binding wins. -/
def getField (fs : List (String × Json)) (k : String) : Option Json :=
  match fs.reverse.find? (fun p => p.1 == k) with
  | some p => some p.2
  | none => none

/-- Trim JavaScript whitespace from both ends of a character list
(`Number(string)` trims before reading the numeric literal). -/
def trimJs (cs : List Char) : List Char :=
  ((cs.dropWhile Char.isWhitespace).reverse.dropWhile Char.isWhitespace).reverse

/-- Decimal mantissa of a JS string numeric literal: `digits`, `digits.digits`,
`digits.`, or `.digits` (at least one digit overall). -/
def parseDecMant (cs : List Char) : Option (ℚ × List Char) :=
  let ip := takeDigits cs
  match ip.2 with
  | [] => if ip.1.isEmpty then none else some ((digitsToNat ip.1 : ℚ), [])
  | d :: rr =>
    if d = '.' then
      let fp := takeDigits rr
      if ip.1.isEmpty ∧ fp.1.isEmpty then none
      else some ((digitsToNat ip.1 : ℚ) + (digitsToNat fp.1 : ℚ) / (10 : ℚ) ^ fp.1.length, fp.2)
    else if ip.1.isEmpty then none
    else some ((digitsToNat ip.1 : ℚ), d :: rr)

/-- Digits of a given radix, consuming the whole list (non-empty). -/
def radixDigits (b : Nat) (cs : List Char) : Option Nat :=
  if cs.isEmpty then none
  else
    cs.foldl
      (fun acc c =>
        match acc, hexVal c with
        | some a, some d => if d < b then some (a * b + d) else none
        | _, _ => none)
      (some 0)

/-- Signed decimal path of `Number(string)`: mantissa then optional exponent,
consuming the whole input. -/
def strNumDec (neg : Bool) (body : List Char) : Option ℚ :=
  match parseDecMant body with
  | none => none
  | some (m, r) =>
    match parseExpPart r with
    | none => none
    | some (ex, r2) =>
      if r2.isEmpty then some ((if neg then -m else m) * (10 : ℚ) ^ ex) else none

/-- `Number(string)` (ToNumber on strings): trim, empty means 0, `Infinity`
is non-finite (`none`), unsigned `0x`/`0o`/`0b` literals, otherwise a signed
decimal literal; anything else is NaN (`none`). -/
def jsStrToNum (s : String) : Option ℚ :=
  match trimJs s.toList with
  | [] => some 0
  | c :: cs1 =>
    let signed : Bool := c = '-' ∨ c = '+'
    let neg : Bool := c = '-'
    let body := if signed then cs1 else c :: cs1
    if body = ('I' :: 'n' :: 'f' :: 'i' :: 'n' :: 'i' :: 't' :: 'y' :: []) then none
    else
      match body with
      | z :: x :: rest =>
        if z = '0' ∧ (x = 'x' ∨ x = 'X') then
          if signed then none
          else match radixDigits 16 rest with
               | some n => some (n : ℚ)
               | none => none
        else if z = '0' ∧ (x = 'o' ∨ x = 'O') then
          if signed then none
          else match radixDigits 8 rest with
               | some n => some (n : ℚ)
               | none => none
        else if z = '0' ∧ (x = 'b' ∨ x = 'B') then
          if signed then none
          else match radixDigits 2 rest with
               | some n => some (n : ℚ)
               | none => none
        else strNumDec neg body
      | _ => strNumDec neg body

/-- `Number(array)` goes through `Array.prototype.toString` (join by comma):
empty array is 0, a single element is converted with null as the empty
string, and any multi-element array contains a comma and is NaN. -/
def jsArrToNum : Json → Option ℚ
| Json.arr [] => some 0
| Json.arr [x] =>
  match x with
  | Json.null => some 0
  | Json.num q => some q
  | Json.str s => jsStrToNum s
  | Json.arr l => jsArrToNum (Json.arr l)
  | _ => none
| _ => none

/-- `Number(v)` for a possibly-undefined JSON value (`none` argument is
`undefined`).  The result is `none` exactly when the coercion is NaN or an
infinity, so `some` coincides with `Number.isFinite`. -/
def jsToNumber : Option Json → Option ℚ
| none => none
| some Json.null => some 0
| some (Json.bool b) => some (if b then 1 else 0)
| some (Json.num q) => some q
| some (Json.str s) => jsStrToNum s
| some (Json.arr l) => jsArrToNum (Json.arr l)
| some (Json.obj _) => none

/-- JavaScript nullish coalescing `a ?? b` on possibly-undefined JSON values
(`none` is `undefined`). -/
def jsCoalesce : Option Json → Option Json → Option Json
| none, b => b
| some Json.null, b => b
| some v, _ => some v

/-- `String.prototype.trim` modelled over the character list (kernel
reducible, unlike the byte-position based core `String.trim`). -/
def strTrim (s : String) : String := String.mk (trimJs s.toList)

/-- One decoded telemetry sample (`RealtimeRow` in the monitoring page). -/
structure RealtimeRow where
  timestamp : String
  measuredPressure : ℚ
  temperature : ℚ
  cycleIndex : Option ℚ
deriving DecidableEq

/-- `clamp(n, min, max) = Math.max(min, Math.min(max, n))`. -/
def clamp (n lo hi : ℚ) : ℚ := max lo (min hi n)

/-- Does the string start with the given character (`startsWith` on a
one-character pattern)? -/
def headIs (s : String) (c : Char) : Bool := s.toList.head? = some c

/-- Does the string end with the given character (`endsWith` on a
one-character pattern)? -/
def lastIs (s : String) (c : Char) : Bool := s.toList.getLast? = some c

/-- The pressure alias chain `obj.pressure ?? obj.measuredPressure ?? obj.p
?? obj.pr`. -/
def selPressure (fs : List (String × Json)) : Option Json :=
  jsCoalesce (getField fs ("pressure"))
    (jsCoalesce (getField fs ("measuredPressure"))
      (jsCoalesce (getField fs ("p")) (getField fs ("pr"))))

/-- The temperature alias chain `obj.temperature ?? obj.temp ?? obj.t`. -/
def selTemp (fs : List (String × Json)) : Option Json :=
  jsCoalesce (getField fs ("temperature"))
    (jsCoalesce (getField fs ("temp")) (getField fs ("t")))

/-- The cycle alias chain `obj.cycle ?? obj.cycleIndex`. -/
def selCycle (fs : List (String × Json)) : Option Json :=
  jsCoalesce (getField fs ("cycle")) (getField fs ("cycleIndex"))

/-- `typeof cycle === "number" ? cycle : Number.isFinite(Number(cycle)) ?
Number(cycle) : undefined`. -/
def cycleOfFields (fs : List (String × Json)) : Option ℚ :=
  match selCycle fs with
  | some (Json.num q) => some q
  | c => jsToNumber c

/-- The body of `parseLine` after a successful `JSON.parse` producing an
object: coerce the alias chains with `Number`, require both finite. -/
def readingOfFields (ts : String) (fs : List (String × Json)) : Option RealtimeRow :=
  match jsToNumber (selPressure fs), jsToNumber (selTemp fs) with
  | some p, some t =>
    some { timestamp := ts, measuredPressure := p, temperature := t,
           cycleIndex := cycleOfFields fs }
  | _, _ => none

/-- `parseLine` from the monitoring page: trim, require a nonempty string
that starts with an opening and ends with a closing brace, `JSON.parse` it
(a thrown `SyntaxError` is caught and yields `null`), and build the row.
`ts` is the wall-clock timestamp taken at entry.  The function is total:
the decoder never raises. -/
def parseLine (ts : String) (line : String) : Option RealtimeRow :=
  if (strTrim line).toList.isEmpty || !headIs (strTrim line) lbrace
      || !lastIs (strTrim line) rbrace then none
  else
    match jsonParse (strTrim line) with
    | some (Json.obj fs) => readingOfFields ts fs
    | _ => none

/-- First alias value taking "the first field present" literally: a key that
is present with a null value is selected (spec wording of the claim). -/
def aliasPresent : List (Option Json) → Option Json
| [] => none
| v :: vs =>
  match v with
  | none => aliasPresent vs
  | some w => some w

/-- Cycle value under the stated reading: present and coercing to a finite
number, otherwise dropped. -/
def cycleStated (fs : List (String × Json)) : Option ℚ :=
  match aliasPresent [getField fs ("cycle"), getField fs ("cycleIndex")] with
  | none => none
  | v => jsToNumber v

/-- Row construction under the stated reading of the claim: take the first
alias field *present* (even if null) and require both coercions finite. -/
def readingOfFieldsStated (ts : String) (fs : List (String × Json)) : Option RealtimeRow :=
  match
    jsToNumber (aliasPresent
      [getField fs ("pressure"), getField fs ("measuredPressure"),
       getField fs ("p"), getField fs ("pr")]),
    jsToNumber (aliasPresent
      [getField fs ("temperature"), getField fs ("temp"), getField fs ("t")]) with
  | some p, some t =>
    some { timestamp := ts, measuredPressure := p, temperature := t,
           cycleIndex := cycleStated fs }
  | _, _ => none

/-- The parser that the claim's words describe: trimmed form syntactically a
JSON object (starts with an opening brace, ends with a closing brace, parses
as JSON), aliases taken as "the first field present". -/
def specParseStated (ts : String) (line : String) : Option RealtimeRow :=
  if (strTrim line).toList.isEmpty || !headIs (strTrim line) lbrace
      || !lastIs (strTrim line) rbrace then none
  else
    match jsonParse (strTrim line) with
    | some (Json.obj fs) => readingOfFieldsStated ts fs
    | _ => none

/-- First alias value under nullish coalescing: skip aliases that are absent
or null, except that the value of the last alias is taken as-is. -/
def firstNonNull : List (Option Json) → Option Json
| [] => none
| [v] => v
| v :: vs =>
  match v with
  | none => firstNonNull vs
  | some Json.null => firstNonNull vs
  | some w => some w

/-- Cycle value under the amended reading: nullish-coalescing selection over
`cycle`/`cycleIndex`, kept when the selected value is a number or coerces to
a finite number. -/
def cycleAmended (fs : List (String × Json)) : Option ℚ :=
  match firstNonNull [getField fs ("cycle"), getField fs ("cycleIndex")] with
  | none => none
  | v => jsToNumber v

/-- Row construction under the amended reading: aliases are selected by
nullish coalescing. -/
def readingOfFieldsAmended (ts : String) (fs : List (String × Json)) : Option RealtimeRow :=
  match
    jsToNumber (firstNonNull
      [getField fs ("pressure"), getField fs ("measuredPressure"),
       getField fs ("p"), getField fs ("pr")]),
    jsToNumber (firstNonNull
      [getField fs ("temperature"), getField fs ("temp"), getField fs ("t")]) with
  | some p, some t =>
    some { timestamp := ts, measuredPressure := p, temperature := t,
           cycleIndex := cycleAmended fs }
  | _, _ => none

/-- The claim amended: same acceptance conditions, but alias selection
follows JavaScript nullish coalescing instead of "first field present". -/
def specParseAmended (ts : String) (line : String) : Option RealtimeRow :=
  if (strTrim line).toList.isEmpty || !headIs (strTrim line) lbrace
      || !lastIs (strTrim line) rbrace then none
  else
    match jsonParse (strTrim line) with
    | some (Json.obj fs) => readingOfFieldsAmended ts fs
    | _ => none

/-- The claim C6 as stated, as a proposition about `parseLine`. -/
def parseMatchesStatedSpec : Prop :=
  ∀ ts line, parseLine ts line = specParseStated ts line

/-- The active session as stored by the monitoring page.  Only the identity
is consulted by the page (`session.id` in the append-reading call); the rest
of the backend record is opaque to this core. -/
structure Sess where
  id : String
deriving DecidableEq

/-- The payload of the backend append-reading call
(`CreateSessionDataDto`). -/
structure CreateSessionDataDto where
  measuredPressure : ℚ
  temperature : ℚ
  cycleIndex : Option ℚ
deriving DecidableEq

/-- The authoritative control state of the monitoring page: React state
hooks plus the two refs (`lastSentRef`, `closeLoopRef`).  `ioConn` models
`io !== null` (a connection object is held). -/
structure CState where
  patientId : String
  session : Option Sess
  targetPressure : ℚ
  holdTimeSeconds : ℚ
  selectedPortIdx : ℤ
  ioConn : Bool
  isMonitoring : Bool
  startedFromDevice : Bool
  closeLoop : Bool
  realtime : List RealtimeRow
  lastSent : ℤ
  err : Option String
  loading : Bool
deriving DecidableEq

/-- Initial state of the page (`useState` initialisers; `lastSentRef` starts
at 0, `closeLoopRef` at false). -/
def sInit : CState :=
  { patientId := "", session := none, targetPressure := 30,
    holdTimeSeconds := 10, selectedPortIdx := -1, ioConn := false,
    isMonitoring := false, startedFromDevice := false, closeLoop := false,
    realtime := [], lastSent := 0, err := none, loading := false }

/-- `canCreateSession = !!patientId && !session && targetPressure > 0 &&
holdTimeSeconds > 0`. -/
def canCreateSession (s : CState) : Bool :=
  s.patientId ≠ "" ∧ s.session = none ∧ 0 < s.targetPressure ∧ 0 < s.holdTimeSeconds

/-- `handleCreateSession`: returns the state after the handler completes and
whether the persistence service was called.  The only guard in the function
body is `if (!patientId) return;` — the remaining `canCreateSession`
conditions are enforced only by disabling the button in the UI.  `res` is
the service outcome (`some` returned session, `none` = rejected promise). -/
def handleCreateSession (s : CState) (res : Option Sess) : CState × Bool :=
  if s.patientId = "" then (s, false)
  else
    match res with
    | some sess =>
      ({ s with loading := false, err := none, session := some sess }, true)
    | none =>
      ({ s with loading := false, err := some ("create-failed") }, true)

/-- `handleConnect` (with the spawned read loop's start modelled by
`closeLoop := false`): guarded only by a selected port; `ok` is the outcome
of `openPort`. -/
def handleConnect (s : CState) (ok : Bool) : CState :=
  if s.selectedPortIdx < 0 then s
  else if ok then { s with err := none, ioConn := true, closeLoop := false }
  else { s with err := some ("open-failed") }

/-- `handleDisconnect`: sets the loop-cancellation ref, closes (errors
swallowed), clears the connection.  Note that it does not touch the
monitoring flag. -/
def handleDisconnect (s : CState) : CState :=
  if s.ioConn then { s with closeLoop := true, ioConn := false } else s

/-- `handleStart`: requires a connection and a session; clears
`startedFromDevice`, writes `"I"` (`wOk` is the write outcome; a rejected
write aborts before the monitoring flag is set). -/
def handleStart (s : CState) (wOk : Bool) : CState :=
  if !s.ioConn || s.session.isNone then s
  else if wOk then { s with err := none, startedFromDevice := false, isMonitoring := true }
  else { s with err := none, startedFromDevice := false }

/-- `handleStop`: requires a connection and a session; writes `"S"` and
clears the monitoring flag.  It does not touch `startedFromDevice`, and no
backend end-session call is made. -/
def handleStop (s : CState) (wOk : Bool) : CState :=
  if !s.ioConn || s.session.isNone then s
  else if wOk then { s with err := none, isMonitoring := false }
  else { s with err := none }

/-- `handleReset`: rejected while monitoring; otherwise disconnects and
restores the defaults (`targetPressure = 30`, `holdTimeSeconds = 10`). -/
def handleReset (s : CState) : CState :=
  if s.isMonitoring then s
  else
    let s1 := handleDisconnect s
    { s1 with
        realtime := [], startedFromDevice := false, session := none,
        patientId := "", err := none, selectedPortIdx := -1,
        targetPressure := 30, holdTimeSeconds := 10 }

/-- `setRealtime(prev => [...prev, reading].slice(-200))`: append and keep
the last 200 entries. -/
def bufferPush (buf : List RealtimeRow) (r : RealtimeRow) : List RealtimeRow :=
  ((buf ++ [r]).drop ((buf ++ [r]).length - 200))

/-- The throttling decision inside the read loop:
`if (session && now - lastSentRef.current >= 1000)` then update
`lastSentRef.current = now` (before the awaited call) and send. -/
def offerStep (lastSent now : ℤ) (hasSession : Bool) : ℤ × Bool :=
  if hasSession = true ∧ 1000 ≤ now - lastSent then (now, true) else (lastSent, false)

/-- Observable events of one read-loop iteration, in program order. -/
inductive Ev where
| readLine : Ev
| markMonitoring : Ev
| bufferAppend : Ev
| setLastSent : Ev
| uploadDispatch : Ev
| uploadAwait : Ev
deriving DecidableEq

/-- One iteration of `readLoop` for a successfully delivered line `line`
read at wall time `now` (timestamp string `ts`): guarded by the cancellation
ref and the connection; parse, possibly mark device-originated monitoring,
append to the buffer, and — when the throttle window has elapsed and a
session exists — send the clamped payload to the backend and await it.
`uploadOk` is the outcome of that awaited call; the `catch` block is empty,
so the resulting state does not depend on it.  Returns the new state, the
ordered event trace of the iteration, and the payload sent (if any). -/
def readLoopIter (s : CState) (ts line : String) (now : ℤ) (_uploadOk : Bool) :
    CState × List Ev × Option CreateSessionDataDto :=
  if !s.ioConn || s.closeLoop then (s, [], none)
  else
    match parseLine ts line with
    | none => (s, [Ev.readLine], none)
    | some r =>
      let mark := s.session.isSome && !s.isMonitoring
      let s1 := if mark then { s with isMonitoring := true, startedFromDevice := true } else s
      let s2 := { s1 with realtime := bufferPush s1.realtime r }
      let front := if mark then [Ev.readLine, Ev.markMonitoring] else [Ev.readLine]
      let off := offerStep s.lastSent now s.session.isSome
      if off.2 then
        (({ s2 with lastSent := off.1 },
          front ++ [Ev.bufferAppend, Ev.setLastSent, Ev.uploadDispatch, Ev.uploadAwait],
          some { measuredPressure := clamp r.measuredPressure 0 200,
                 temperature := clamp r.temperature 0 80,
                 cycleIndex := r.cycleIndex }))
      else (s2, front ++ [Ev.bufferAppend], none)

/-- End of the read loop: `readLine` reported end-of-stream (`ioErr =
false`, clean break) or threw (`ioErr = true`: the error is surfaced unless
cancellation was requested).  The connection state itself is not cleared by
the loop. -/
def readEnd (s : CState) (ioErr : Bool) : CState :=
  if !s.ioConn || s.closeLoop then s
  else if ioErr then { s with err := some ("read-error") } else s

/-- Operations of the monitoring page's state machine.  Handler outcomes
(service results, write success) are operation parameters. -/
inductive Op where
| setPatient (pid : String) : Op
| pickDevice (i : ℤ) : Op
| createSession (res : Option Sess) : Op
| connect (ok : Bool) : Op
| disconnect : Op
| start (wOk : Bool) : Op
| stop (wOk : Bool) : Op
| reset : Op
| readStep (ts line : String) (now : ℤ) (uploadOk : Bool) : Op
| readEnded (ioErr : Bool) : Op
deriving DecidableEq

/-- Apply one operation to the state. -/
def applyOp (s : CState) : Op → CState
| Op.setPatient pid => { s with patientId := pid }
| Op.pickDevice i => { s with selectedPortIdx := i }
| Op.createSession res => (handleCreateSession s res).1
| Op.connect ok => handleConnect s ok
| Op.disconnect => handleDisconnect s
| Op.start wOk => handleStart s wOk
| Op.stop wOk => handleStop s wOk
| Op.reset => handleReset s
| Op.readStep ts line now uploadOk => (readLoopIter s ts line now uploadOk).1
| Op.readEnded ioErr => readEnd s ioErr

/-- Run a sequence of operations from a state. -/
def run (s : CState) (ops : List Op) : CState := ops.foldl applyOp s

/-- Times at which the throttler actually sends, for an offer sequence with
the given times (session present throughout), starting from the given
`lastSentAt`. -/
def sentTimes (lastSent : ℤ) : List ℤ → List ℤ
| [] => []
| t :: rest =>
  if (offerStep lastSent t true).2 then t :: sentTimes (offerStep lastSent t true).1 rest
  else sentTimes (offerStep lastSent t true).1 rest

/-- Gap relation between persistence send times: at least 1000 ms apart. -/
def gapR (x y : ℤ) : Prop := x + 1000 ≤ y

instance : IsTrans ℤ gapR := ⟨fun a b c h1 h2 => by unfold gapR at *; omega⟩

instance : DecidableRel gapR := fun a b => by unfold gapR; infer_instance

/-- The claim that the read path never waits for the persistence call: no
iteration's event trace contains the await of the upload. -/
def uploadsDecoupled : Prop :=
  ∀ (s : CState) (ts line : String) (now : ℤ) (ok : Bool),
    Ev.uploadAwait ∉ (readLoopIter s ts line now ok).2.1

/-- A monitoring state with a session and an open connection. -/
def cexMonState : CState :=
  { sInit with session := some ⟨("s1")⟩, ioConn := true, isMonitoring := true }

/-- A telemetry line with pressure 250 kPa (above the 200 kPa bound). -/
def cexLine250 : String := "\x7b\"p\":250,\"t\":10\x7d"

/-- A state with a patient selected and a session already present. -/
def cexSessState : CState :=
  { sInit with patientId := ("p1"), session := some ⟨("s0")⟩ }

/-- Create a session, connect, let the device start a cycle on its own
(valid reading while not monitoring), then operator stop. -/
def cexStopTrace : List Op :=
  [Op.setPatient ("p1"), Op.createSession (some ⟨("s1")⟩), Op.pickDevice 0,
   Op.connect true, Op.readStep ("t0") ("\x7b\"p\":1,\"t\":2\x7d") 5000 true,
   Op.stop true]

/-- Create a session, connect, start monitoring, then disconnect while
monitoring. -/
def cexDisconnectTrace : List Op :=
  [Op.setPatient ("p1"), Op.createSession (some ⟨("s1")⟩), Op.pickDevice 0,
   Op.connect true, Op.start true, Op.disconnect]

/-- A disconnect-free trace that reaches a monitoring state. -/
def wMonTrace : List Op :=
  [Op.setPatient ("p1"), Op.createSession (some ⟨("s1")⟩), Op.pickDevice 0,
   Op.connect true, Op.start true]

/-- A connected state with a session and monitoring off. -/
def wDevState : CState := { sInit with session := some ⟨("s1")⟩, ioConn := true }

/-- Three hundred distinct rows. -/
def rows300 : List RealtimeRow :=
  (List.range 300).map (fun (i : ℕ) => ⟨("t"), (i : ℚ), 0, none⟩)

/-- A line whose first pressure alias is present but null while a later
alias carries a value. -/
def exLine : String := "\x7b\"pressure\":null,\"p\":5,\"t\":1\x7d"

/-- Dropping down to the last `n` elements is absorbed by a later append:
keeping the last `n` of `a`, appending `b`, and keeping the last `n` again
is keeping the last `n` of `a ++ b`. -/
theorem drop_absorb {α : Type} (a b : List α) (n : ℕ) :
    ((a.drop (a.length - n)) ++ b).drop (((a.drop (a.length - n)) ++ b).length - n)
      = (a ++ b).drop ((a ++ b).length - n) := by
  rcases le_or_lt a.length n with h | h
  · simp [Nat.sub_eq_zero_of_le h]
  · have hk : a.length - n ≤ a.length := Nat.sub_le _ _
    rw [← List.drop_append_of_le_length hk, List.drop_drop]
    congr 1
    simp only [List.length_drop, List.length_append]
    omega

/-- Folding `bufferPush` keeps the last 200 elements of everything appended. -/
theorem bufferPush_foldl (rs : List RealtimeRow) (init : List RealtimeRow)
    (h : init.length ≤ 200) :
    rs.foldl bufferPush init = (init ++ rs).drop ((init ++ rs).length - 200) := by
  induction rs generalizing init with
  | nil => simp [Nat.sub_eq_zero_of_le h]
  | cons r rest ih =>
    have hlen : (bufferPush init r).length ≤ 200 := by
      simp only [bufferPush, List.length_drop, List.length_append]
      omega
    have step : List.foldl bufferPush init (r :: rest)
        = rest.foldl bufferPush (bufferPush init r) := rfl
    rw [step, ih _ hlen]
    have habs := drop_absorb (init ++ [r]) rest 200
    simp only [bufferPush]
    simp only [List.append_assoc, List.singleton_append] at habs ⊢
    exact habs

/-- C8: the IngestionBuffer (`realtime` updated by
`[...prev, reading].slice(-200)`) is a FIFO of capacity 200: starting from
the empty buffer, its length never exceeds 200, its contents are exactly the
last 200 insertions in arrival order, after at least 200 insertions its
length is exactly 200, and an insertion at capacity evicts precisely the
oldest entry. -/
theorem buffer_fifo_capacity (rows : List RealtimeRow) :
    (rows.foldl bufferPush []).length ≤ 200
    ∧ rows.foldl bufferPush [] = rows.drop (rows.length - 200)
    ∧ (200 ≤ rows.length → (rows.foldl bufferPush []).length = 200)
    ∧ (∀ buf r, buf.length = 200 → bufferPush buf r = buf.tail ++ [r]) := by
  have hfold := bufferPush_foldl rows [] (by simp)
  simp only [List.nil_append] at hfold
  refine ⟨?_, hfold, ?_, ?_⟩
  · rw [hfold]; simp only [List.length_drop]; omega
  · intro h200; rw [hfold]; simp only [List.length_drop]; omega
  · intro buf r hb
    cases buf with
    | nil => simp at hb
    | cons x xs =>
      simp only [bufferPush, List.length_append, hb, List.length_cons, List.length_nil]
      norm_num

/-- Witness for C8: after 300 appends the buffer is the last 200 rows, in
order, and has length exactly 200. -/
theorem buffer_fifo_capacity_witness :
    rows300.foldl bufferPush [] = rows300.drop 100
    ∧ (rows300.foldl bufferPush []).length = 200 := by
  have h := buffer_fifo_capacity rows300
  have hlen : rows300.length = 300 := by
    simp only [rows300, List.length_map, List.length_range]
  constructor
  · have h2 := h.2.1
    rw [hlen] at h2
    norm_num at h2
    exact h2
  · exact h.2.2.1 (by rw [hlen]; norm_num)

/-- `clamp` lands in the requested interval. -/
theorem clamp_range (x lo hi : ℚ) (h : lo ≤ hi) :
    lo ≤ clamp x lo hi ∧ clamp x lo hi ≤ hi := by
  unfold clamp
  exact ⟨le_max_left _ _, max_le h (min_le_left _ _)⟩

/-- C9: in a loop state with an open connection, an active session and
monitoring off, a successfully decoded reading flips the monitoring flag on
and marks the start as device-originated. -/
theorem device_start_detection (s : CState) (ts line : String) (now : ℤ) (ok : Bool)
    (r : RealtimeRow) (hio : s.ioConn = true) (hcl : s.closeLoop = false)
    (hs : s.session.isSome = true) (hm : s.isMonitoring = false)
    (hp : parseLine ts line = some r) :
    (readLoopIter s ts line now ok).1.isMonitoring = true ∧
    (readLoopIter s ts line now ok).1.startedFromDevice = true := by
  unfold readLoopIter
  rw [hio, hcl, hp]
  simp only [Bool.not_true, Bool.or_false, Bool.false_eq_true, if_false, hs, hm,
    Bool.not_false, Bool.and_self, if_true]
  split <;> simp

/-- Witness for C9. -/
theorem device_start_detection_witness :
    (readLoopIter wDevState ("t0") ("\x7b\"p\":1,\"t\":2\x7d") 5000 true).1.isMonitoring = true
    ∧ (readLoopIter wDevState ("t0") ("\x7b\"p\":1,\"t\":2\x7d") 5000 true).1.startedFromDevice = true :=
  device_start_detection wDevState ("t0") ("\x7b\"p\":1,\"t\":2\x7d") 5000 true
    { timestamp := ("t0"), measuredPressure := 1, temperature := 2, cycleIndex := none }
    rfl rfl rfl rfl (by with_unfolding_all decide)

/-- C10: a persistence failure is swallowed at the throttler boundary: the
iteration's resulting state, trace and payload do not depend on the upload
outcome at all (the `catch` block is empty), the operator error field and
the loop-cancellation flag are untouched by the iteration, and a sending
iteration dispatches the upload exactly once (no retry). -/
theorem upload_failure_swallowed (s : CState) (ts line : String) (now : ℤ) :
    readLoopIter s ts line now true = readLoopIter s ts line now false
    ∧ (∀ ok, (readLoopIter s ts line now ok).1.err = s.err)
    ∧ (∀ ok, (readLoopIter s ts line now ok).1.closeLoop = s.closeLoop)
    ∧ (∀ ok p, (readLoopIter s ts line now ok).2.2 = some p →
        (readLoopIter s ts line now ok).2.1.count Ev.uploadDispatch = 1) := by
  refine ⟨rfl, ?_, ?_, ?_⟩
  · intro ok
    unfold readLoopIter
    split
    · rfl
    · split
      · rfl
      · dsimp only
        split <;> simp [apply_ite]
  · intro ok
    unfold readLoopIter
    split
    · rfl
    · split
      · rfl
      · dsimp only
        split <;> simp [apply_ite]
  · intro ok p hp
    cases hguard : (!s.ioConn || s.closeLoop) with
    | true => simp [readLoopIter, hguard] at hp
    | false =>
      cases hparse : parseLine ts line with
      | none => simp [readLoopIter, hguard, hparse] at hp
      | some r =>
        cases hsend : (offerStep s.lastSent now s.session.isSome).2 with
        | false => simp [readLoopIter, hguard, hparse, hsend] at hp
        | true =>
          simp only [readLoopIter, hguard, hparse, hsend]
          cases hmark : (s.session.isSome && !s.isMonitoring) <;>
            simp [hmark]

/-- Witness for C10: on a concrete sending iteration the state is identical
for a succeeding and a failing upload, and the upload is dispatched once. -/
theorem upload_failure_swallowed_witness :
    readLoopIter cexMonState ("t0") cexLine250 5000 true =
      readLoopIter cexMonState ("t0") cexLine250 5000 false
    ∧ (readLoopIter cexMonState ("t0") cexLine250 5000 true).2.1.count Ev.uploadDispatch = 1 :=
  ⟨(upload_failure_swallowed cexMonState ("t0") cexLine250 5000).1,
   (upload_failure_swallowed cexMonState ("t0") cexLine250 5000).2.2.2 true
     ⟨200, 10, none⟩ (by with_unfolding_all decide)⟩

/-- C1 (amended): every payload actually sent to the backend append-reading
call carries the clamped values — `measuredPressure` clamped into [0, 200]
and `temperature` into [0, 80], exactly `clamp` of the decoded reading —
while the entry appended to the IngestionBuffer is the raw decoded reading,
not the clamped one. -/
theorem upload_clamped_buffer_raw (s : CState) (ts line : String) (now : ℤ) (ok : Bool)
    (p : CreateSessionDataDto) (hp : (readLoopIter s ts line now ok).2.2 = some p) :
    (0 ≤ p.measuredPressure ∧ p.measuredPressure ≤ 200 ∧
     0 ≤ p.temperature ∧ p.temperature ≤ 80)
    ∧ ∃ r, parseLine ts line = some r
        ∧ p.measuredPressure = clamp r.measuredPressure 0 200
        ∧ p.temperature = clamp r.temperature 0 80
        ∧ p.cycleIndex = r.cycleIndex
        ∧ (readLoopIter s ts line now ok).1.realtime = bufferPush s.realtime r := by
  cases hguard : (!s.ioConn || s.closeLoop) with
  | true => simp [readLoopIter, hguard] at hp
  | false =>
    cases hparse : parseLine ts line with
    | none => simp [readLoopIter, hguard, hparse] at hp
    | some r =>
      cases hsend : (offerStep s.lastSent now s.session.isSome).2 with
      | false => simp [readLoopIter, hguard, hparse, hsend] at hp
      | true =>
        simp only [readLoopIter, hguard, hparse, hsend, if_true, if_false,
          Bool.false_eq_true, Option.some.injEq] at hp
        subst hp
        constructor
        · have h1 := clamp_range r.measuredPressure 0 200 (by norm_num)
          have h2 := clamp_range r.temperature 0 80 (by norm_num)
          exact ⟨h1.1, h1.2, h2.1, h2.2⟩
        · refine ⟨r, rfl, rfl, rfl, rfl, ?_⟩
          simp only [readLoopIter, hguard, hparse, hsend, if_true, if_false,
            Bool.false_eq_true]
          cases hmark : (s.session.isSome && !s.isMonitoring) <;> simp [hmark]

/-- Counterexample for C1 as stated: on the line with pressure 250 the entry
appended to the buffer carries 250 — outside [0, 200] — while the payload
forwarded to the backend carries the clamped 200. -/
theorem clamp_buffer_counterexample :
    (readLoopIter cexMonState ("t0") cexLine250 5000 true).1.realtime =
      [{ timestamp := ("t0"), measuredPressure := 250, temperature := 10, cycleIndex := none }]
    ∧ ¬ ((250 : ℚ) ≤ 200)
    ∧ (readLoopIter cexMonState ("t0") cexLine250 5000 true).2.2 =
        some { measuredPressure := 200, temperature := 10, cycleIndex := none } :=
  ⟨by with_unfolding_all decide, by norm_num, by with_unfolding_all decide⟩

/-- Witness for C1: the concrete sent payload satisfies the bounds. -/
theorem upload_clamped_buffer_raw_witness :
    (0 : ℚ) ≤ 200 ∧ (200 : ℚ) ≤ 200 ∧ (0 : ℚ) ≤ 10 ∧ (10 : ℚ) ≤ 80 :=
  (upload_clamped_buffer_raw cexMonState ("t0") cexLine250 5000 true
    ⟨200, 10, none⟩ (by with_unfolding_all decide)).1

/-- Counterexample for C4 as stated: the read loop is not decoupled from the
upload — an iteration's trace does contain the await of the persistence
call. -/
theorem read_path_decoupled_counterexample : ¬ uploadsDecoupled := fun h =>
  absurd (h cexMonState ("t0") cexLine250 5000 true) (by with_unfolding_all decide)

/-- C4 (amended): the persistence call is awaited inline: whenever a payload
is sent, the iteration's event trace ends with `setLastSent`,
`uploadDispatch`, `uploadAwait` — the loop reaches its next `readLine` only
after the awaited call completes. -/
theorem upload_awaited_inline (s : CState) (ts line : String) (now : ℤ) (ok : Bool)
    (p : CreateSessionDataDto) (hp : (readLoopIter s ts line now ok).2.2 = some p) :
    ∃ front, (readLoopIter s ts line now ok).2.1 =
        front ++ [Ev.setLastSent, Ev.uploadDispatch, Ev.uploadAwait]
      ∧ ((readLoopIter s ts line now ok).2.1).getLast? = some Ev.uploadAwait := by
  cases hguard : (!s.ioConn || s.closeLoop) with
  | true => simp [readLoopIter, hguard] at hp
  | false =>
    cases hparse : parseLine ts line with
    | none => simp [readLoopIter, hguard, hparse] at hp
    | some r =>
      cases hsend : (offerStep s.lastSent now s.session.isSome).2 with
      | false => simp [readLoopIter, hguard, hparse, hsend] at hp
      | true =>
        simp only [readLoopIter, hguard, hparse, hsend, if_true, if_false,
          Bool.false_eq_true]
        cases hmark : (s.session.isSome && !s.isMonitoring) with
        | true =>
          exact ⟨[Ev.readLine, Ev.markMonitoring, Ev.bufferAppend], by simp, by simp⟩
        | false =>
          exact ⟨[Ev.readLine, Ev.bufferAppend], by simp, by simp⟩

/-- Witness for C4 (amended). -/
theorem upload_awaited_inline_witness :
    ∃ front, (readLoopIter cexMonState ("t0") cexLine250 5000 true).2.1 =
        front ++ [Ev.setLastSent, Ev.uploadDispatch, Ev.uploadAwait]
      ∧ ((readLoopIter cexMonState ("t0") cexLine250 5000 true).2.1).getLast? =
          some Ev.uploadAwait :=
  upload_awaited_inline cexMonState ("t0") cexLine250 5000 true ⟨200, 10, none⟩
    (by with_unfolding_all decide)

/-- C5 (amended): `handleCreateSession` calls the persistence service iff
`patientId` is set (the remaining `canCreateSession` preconditions are
enforced only by the UI disabling the action); when `patientId` is unset it
returns silently with the state unchanged and no error; on service success
(with `patientId` set) it stores the returned session as the active session
and clears the error. -/
theorem createSession_guard_behavior (s : CState) (res : Option Sess) :
    ((handleCreateSession s res).2 = true ↔ ¬ s.patientId = "")
    ∧ (s.patientId = "" → handleCreateSession s res = (s, false))
    ∧ (∀ sess, res = some sess → ¬ s.patientId = "" →
        (handleCreateSession s res).1.session = some sess ∧
        (handleCreateSession s res).1.err = none) := by
  unfold handleCreateSession
  by_cases h : s.patientId = "" <;> cases res <;> simp [h]

/-- Counterexample for C5 as stated: with a patient selected and a session
already present, `canCreateSession` is false, yet `handleCreateSession`
performs the service call (and overwrites the active session) instead of
failing with a validation error before I/O. -/
theorem createSession_precondition_counterexample :
    canCreateSession cexSessState = false
    ∧ (handleCreateSession cexSessState (some ⟨("s1")⟩)).2 = true
    ∧ (handleCreateSession cexSessState (some ⟨("s1")⟩)).1.session = some ⟨("s1")⟩ := by
  with_unfolding_all decide

/-- Witness for C5 (amended). -/
theorem createSession_guard_behavior_witness :
    (handleCreateSession cexSessState (some ⟨("s1")⟩)).1.session = some ⟨("s1")⟩
    ∧ (handleCreateSession cexSessState (some ⟨("s1")⟩)).1.err = none :=
  (createSession_guard_behavior cexSessState (some ⟨("s1")⟩)).2.2 ⟨("s1")⟩ rfl
    (by with_unfolding_all decide)

/-- C3 (amended): an operator stop (successful write of `"S"`, requiring a
connection and a session) always sets the monitoring flag to false, and
leaves `startedFromDevice` unchanged — the code does not clear it; it also
leaves the session record and the connection as they were. -/
theorem stop_clears_monitoring_only (s : CState) (hio : s.ioConn = true)
    (hs : s.session.isSome = true) :
    (handleStop s true).isMonitoring = false
    ∧ (handleStop s true).startedFromDevice = s.startedFromDevice
    ∧ (handleStop s true).session = s.session
    ∧ (handleStop s true).ioConn = s.ioConn := by
  unfold handleStop
  have hn : s.session.isNone = false := by cases hse : s.session <;> simp_all
  simp [hio, hn]

/-- Counterexample for C3 as stated: monitoring was entered from the device
(`startedFromDevice = true`); after the operator stop, monitoring is false
but `startedFromDevice` is still true — the stop did not clear it. -/
theorem stop_startedFromDevice_counterexample :
    (run sInit cexStopTrace).isMonitoring = false
    ∧ (run sInit cexStopTrace).startedFromDevice = true := by
  with_unfolding_all decide

/-- Witness for C3 (amended). -/
theorem stop_clears_monitoring_only_witness :
    (handleStop cexMonState true).isMonitoring = false
    ∧ (handleStop cexMonState true).startedFromDevice = cexMonState.startedFromDevice
    ∧ (handleStop cexMonState true).session = cexMonState.session
    ∧ (handleStop cexMonState true).ioConn = cexMonState.ioConn :=
  stop_clears_monitoring_only cexMonState rfl rfl

/-- Preservation: every operation except `handleDisconnect` preserves the
invariant "monitoring implies an open connection". -/
theorem applyOp_keeps_invariant (s : CState) (op : Op) (hne : op ≠ Op.disconnect)
    (hI : s.isMonitoring = true → s.ioConn = true) :
    (applyOp s op).isMonitoring = true → (applyOp s op).ioConn = true := by
  cases op with
  | setPatient pid => simpa [applyOp] using hI
  | pickDevice i => simpa [applyOp] using hI
  | createSession res =>
    unfold applyOp handleCreateSession
    by_cases h : s.patientId = "" <;> cases res <;> simp [h] <;> exact hI
  | connect ok =>
    unfold applyOp handleConnect
    by_cases h : s.selectedPortIdx < 0 <;> cases ok <;> simp [h] <;> exact hI
  | disconnect => exact absurd rfl hne
  | start wOk =>
    unfold applyOp handleStart
    cases hio : s.ioConn <;> cases hse : s.session <;> cases wOk <;> simp_all
  | stop wOk =>
    unfold applyOp handleStop
    cases hio : s.ioConn <;> cases hse : s.session <;> cases wOk <;> simp_all
  | reset =>
    cases hm : s.isMonitoring with
    | true => simpa [applyOp, handleReset, hm] using hI
    | false =>
      simp only [applyOp, handleReset, hm, Bool.false_eq_true, if_false]
      cases hioc : s.ioConn <;> simp [handleDisconnect, hioc, hm]
  | readStep ts line now ok =>
    cases hguard : (!s.ioConn || s.closeLoop) with
    | true =>
      simp only [applyOp, readLoopIter, hguard]
      simpa using hI
    | false =>
      have hio : s.ioConn = true := by cases hioc : s.ioConn <;> simp_all
      have hcl : s.closeLoop = false := by cases hclc : s.closeLoop <;> simp_all
      intro _
      cases hparse : parseLine ts line with
      | none => simp [applyOp, readLoopIter, hguard, hparse, hio, hcl]
      | some r =>
        cases hsend : (offerStep s.lastSent now s.session.isSome).2 <;>
        cases hmark : (s.session.isSome && !s.isMonitoring) <;>
          simp [applyOp, readLoopIter, hguard, hparse, hsend, hmark, hio, hcl]
  | readEnded e =>
    unfold applyOp readEnd
    cases hguard : (!s.ioConn || s.closeLoop) <;> cases e <;> simp_all

/-- C2 (amended): starting from the initial state, any sequence of page
operations that never invokes `handleDisconnect` keeps the invariant
"monitoring flag true implies an open connection".  (The excluded
`handleDisconnect` breaks it, because it clears the connection without
clearing the monitoring flag.) -/
theorem monitoring_invariant_without_disconnect (ops : List Op)
    (h : ∀ op ∈ ops, op ≠ Op.disconnect) :
    (run sInit ops).isMonitoring = true → (run sInit ops).ioConn = true := by
  suffices key : ∀ (s : CState), (s.isMonitoring = true → s.ioConn = true) →
      (∀ op ∈ ops, op ≠ Op.disconnect) →
      ((run s ops).isMonitoring = true → (run s ops).ioConn = true) by
    exact key sInit (by intro hm; exact absurd hm (by decide)) h
  clear h
  induction ops with
  | nil => intro s hI _; exact hI
  | cons op rest ih =>
    intro s hI hall
    have h1 : op ≠ Op.disconnect := hall op (List.mem_cons_self op rest)
    exact ih (applyOp s op) (applyOp_keeps_invariant s op h1 hI)
      (fun o ho => hall o (List.mem_cons_of_mem _ ho))

/-- Counterexample for C2 as stated: a reachable trace — create a session,
connect, start, then disconnect while monitoring — ends with the monitoring
flag still true and no open connection. -/
theorem monitoring_invariant_counterexample :
    (run sInit cexDisconnectTrace).isMonitoring = true
    ∧ (run sInit cexDisconnectTrace).ioConn = false := by
  with_unfolding_all decide

/-- Witness for C2 (amended): on a concrete disconnect-free trace that is
monitoring, the connection is open. -/
theorem monitoring_invariant_without_disconnect_witness :
    (run sInit wMonTrace).ioConn = true :=
  monitoring_invariant_without_disconnect wMonTrace (by decide)
    (by with_unfolding_all decide)

/-- Consecutive send times of the throttler are chained at least 1000 ms
apart (starting from the stored `lastSentAt`). -/
theorem sentTimes_chain (ts : List ℤ) (l0 : ℤ) :
    List.Chain gapR l0 (sentTimes l0 ts) := by
  induction ts generalizing l0 with
  | nil => exact List.Chain.nil
  | cons t rest ih =>
    by_cases h : 1000 ≤ t - l0
    · have h2 : (offerStep l0 t true).2 = true := by simp [offerStep, h]
      have h1 : (offerStep l0 t true).1 = t := by simp [offerStep, h]
      simp only [sentTimes, h2, if_true, h1]
      exact List.Chain.cons (by unfold gapR; omega) (ih t)
    · have h2 : (offerStep l0 t true).2 = false := by simp [offerStep, h]
      have h1 : (offerStep l0 t true).1 = l0 := by simp [offerStep, h]
      simp only [sentTimes, h2, if_false, h1, Bool.false_eq_true]
      exact ih l0

/-- The send times are pairwise at least 1000 ms apart. -/
theorem sentTimes_pairwise (ts : List ℤ) (l0 : ℤ) :
    (sentTimes l0 ts).Pairwise gapR :=
  (List.pairwise_cons.mp (List.chain_iff_pairwise.mp (sentTimes_chain ts l0))).2

/-- A list that is pairwise ≥ 1000 ms apart meets any half-open 1000 ms
window at most once. -/
theorem pairwise_window_le_one (l : List ℤ) (a : ℤ)
    (h : l.Pairwise gapR) :
    (l.filter (fun t => decide (a ≤ t) && decide (t < a + 1000))).length ≤ 1 := by
  have hpf := h.filter (fun t => decide (a ≤ t) && decide (t < a + 1000))
  cases hfl : l.filter (fun t => decide (a ≤ t) && decide (t < a + 1000)) with
  | nil => simp
  | cons x tl =>
    cases htl : tl with
    | nil => simp
    | cons y tl2 =>
      exfalso
      rw [hfl, htl] at hpf
      have hxy : gapR x y := (List.pairwise_cons.mp hpf).1 y (List.mem_cons_self _ _)
      have hxm : x ∈ l.filter (fun t => decide (a ≤ t) && decide (t < a + 1000)) := by
        rw [hfl]; exact List.mem_cons_self _ _
      have hym : y ∈ l.filter (fun t => decide (a ≤ t) && decide (t < a + 1000)) := by
        rw [hfl, htl]; exact List.mem_cons_of_mem _ (List.mem_cons_self _ _)
      have hx := (List.mem_filter.mp hxm).2
      have hy := (List.mem_filter.mp hym).2
      simp only [Bool.and_eq_true, decide_eq_true_eq] at hx hy
      unfold gapR at hxy
      omega

/-- Offers whose times are chained ≥ 1000 ms apart (the first at least
1000 ms after the stored `lastSentAt`) all trigger sends. -/
theorem sentTimes_all_sent (ts : List ℤ) (l0 : ℤ)
    (h : List.Chain gapR l0 ts) : sentTimes l0 ts = ts := by
  induction ts generalizing l0 with
  | nil => rfl
  | cons t rest ih =>
    cases h with
    | cons h1 h2 =>
      unfold gapR at h1
      have hd : (1000 : ℤ) ≤ t - l0 := by omega
      have hs : (offerStep l0 t true).2 = true := by simp [offerStep, hd]
      have h1' : (offerStep l0 t true).1 = t := by simp [offerStep, hd]
      simp only [sentTimes, hs, if_true, h1']
      rw [ih _ h2]

/-- C7: the throttler sends exactly when `now - lastSentAt ≥ 1000`; when it
sends, `lastSentAt` becomes `now` (and is left unchanged otherwise); any
rolling 1000 ms window contains at most one send; offers spaced ≥ 1000 ms
apart (the first ≥ 1000 ms past the stored `lastSentAt`) each trigger a
send; and within a sending iteration the `lastSentAt` update is ordered
before the await of the persistence call. -/
theorem throttler_policy (last now a l0 : ℤ) (ts : List ℤ) :
    ((offerStep last now true).2 = true ↔ 1000 ≤ now - last)
    ∧ ((offerStep last now true).2 = true → (offerStep last now true).1 = now)
    ∧ ((offerStep last now true).2 = false → (offerStep last now true).1 = last)
    ∧ (((sentTimes l0 ts).filter
          (fun t => decide (a ≤ t) && decide (t < a + 1000))).length ≤ 1)
    ∧ (List.Chain gapR l0 ts → sentTimes l0 ts = ts)
    ∧ (∀ (s : CState) (tsS line : String) (n : ℤ) (ok : Bool) (p : CreateSessionDataDto),
        (readLoopIter s tsS line n ok).2.2 = some p →
        (readLoopIter s tsS line n ok).2.1.indexOf Ev.setLastSent <
          (readLoopIter s tsS line n ok).2.1.indexOf Ev.uploadAwait) := by
  refine ⟨?_, ?_, ?_, pairwise_window_le_one _ _ (sentTimes_pairwise ts l0),
    sentTimes_all_sent ts l0, ?_⟩
  · constructor
    · intro h
      by_cases hc : 1000 ≤ now - last
      · exact hc
      · simp [offerStep, hc] at h
    · intro h; simp [offerStep, h]
  · intro h
    by_cases hc : 1000 ≤ now - last
    · simp [offerStep, hc]
    · simp [offerStep, hc] at h
  · intro h
    by_cases hc : 1000 ≤ now - last
    · simp [offerStep, hc] at h
    · simp [offerStep, hc]
  · intro s tsS line n ok p hp
    cases hguard : (!s.ioConn || s.closeLoop) with
    | true => simp [readLoopIter, hguard] at hp
    | false =>
      cases hparse : parseLine tsS line with
      | none => simp [readLoopIter, hguard, hparse] at hp
      | some r =>
        cases hsend : (offerStep s.lastSent n s.session.isSome).2 with
        | false => simp [readLoopIter, hguard, hparse, hsend] at hp
        | true =>
          simp only [readLoopIter, hguard, hparse, hsend, if_true, if_false,
            Bool.false_eq_true]
          cases hmark : (s.session.isSome && !s.isMonitoring) <;> simp [hmark]

/-- Witness for C7: a concrete send, a concrete fully-sent spaced sequence,
and the concrete in-iteration ordering. -/
theorem throttler_policy_witness :
    (offerStep 0 5000 true).2 = true
    ∧ sentTimes 0 [1000, 2500] = [1000, 2500]
    ∧ (readLoopIter cexMonState ("t0") cexLine250 5000 true).2.1.indexOf Ev.setLastSent <
        (readLoopIter cexMonState ("t0") cexLine250 5000 true).2.1.indexOf Ev.uploadAwait := by
  have h := throttler_policy 0 5000 900 0 [1000, 2500]
  refine ⟨h.1.mpr (by norm_num), h.2.2.2.2.1 ?_, ?_⟩
  · exact List.Chain.cons (by unfold gapR; norm_num)
      (List.Chain.cons (by unfold gapR; norm_num) List.Chain.nil)
  · exact h.2.2.2.2.2 cexMonState ("t0") cexLine250 5000 true ⟨200, 10, none⟩
      (by with_unfolding_all decide)

/-- With at least two aliases remaining, selecting by nullish coalescing is
one coalescing step over the first. -/
theorem firstNonNull_cons (v : Option Json) (vs : List (Option Json)) (h : vs ≠ []) :
    firstNonNull (v :: vs) = jsCoalesce v (firstNonNull vs) := by
  cases vs with
  | nil => exact absurd rfl h
  | cons w ws =>
    cases v with
    | none => rfl
    | some j => cases j <;> rfl

/-- The pressure alias chain is the nullish-coalescing selection over the
four pressure aliases. -/
theorem selPressure_eq (fs : List (String × Json)) :
    selPressure fs = firstNonNull
      [getField fs ("pressure"), getField fs ("measuredPressure"),
       getField fs ("p"), getField fs ("pr")] := by
  rw [firstNonNull_cons _ _ (by simp), firstNonNull_cons _ _ (by simp),
      firstNonNull_cons _ _ (by simp)]
  rfl

/-- The temperature alias chain is the nullish-coalescing selection over the
three temperature aliases. -/
theorem selTemp_eq (fs : List (String × Json)) :
    selTemp fs = firstNonNull
      [getField fs ("temperature"), getField fs ("temp"), getField fs ("t")] := by
  rw [firstNonNull_cons _ _ (by simp), firstNonNull_cons _ _ (by simp)]
  rfl

/-- The cycle alias chain is the nullish-coalescing selection over the two
cycle aliases. -/
theorem selCycle_eq (fs : List (String × Json)) :
    selCycle fs = firstNonNull [getField fs ("cycle"), getField fs ("cycleIndex")] := by
  rw [firstNonNull_cons _ _ (by simp)]
  rfl

/-- The code's cycle handling (`typeof` test then finite coercion) agrees
with the amended specification's cycle selection. -/
theorem cycleOfFields_eq (fs : List (String × Json)) :
    cycleOfFields fs = cycleAmended fs := by
  unfold cycleOfFields cycleAmended
  rw [← selCycle_eq]
  cases hc : selCycle fs with
  | none => rfl
  | some v => cases v <;> rfl

/-- Row construction from a parsed object agrees with the amended
specification's construction. -/
theorem readingOfFields_eq (ts : String) (fs : List (String × Json)) :
    readingOfFields ts fs = readingOfFieldsAmended ts fs := by
  unfold readingOfFields readingOfFieldsAmended
  rw [← selPressure_eq, ← selTemp_eq]
  simp only [cycleOfFields_eq]

/-- C6 (amended): for every input string, `parseLine` behaves exactly as the
claim describes once alias selection is read as JavaScript nullish
coalescing (skip absent and null aliases, take the final alias's value
as-is): it yields a Reading exactly when the trimmed input is syntactically
a JSON object whose selected pressure and temperature alias values both
coerce to finite numbers, carrying exactly those coerced values, with the
cycle kept only when its selected value is a number or coerces to a finite
number; every other input yields nothing (the decoder is total and never
raises). -/
theorem parse_characterization (ts line : String) :
    parseLine ts line = specParseAmended ts line := by
  unfold parseLine specParseAmended
  by_cases hg : ((strTrim line).toList.isEmpty || !headIs (strTrim line) lbrace
      || !lastIs (strTrim line) rbrace) = true
  · rw [if_pos hg, if_pos hg]
  · rw [if_neg hg, if_neg hg]
    cases hj : jsonParse (strTrim line) with
    | none => rfl
    | some v => cases v <;> first | rfl | exact readingOfFields_eq ts _

/-- Counterexample for C6 as stated: on a line whose first pressure alias is
present but null (`pressure: null`) with a later alias carrying 5, the
stated "first field present" reading demands pressure 0 (`Number(null)`),
but `parseLine` skips the null alias and returns pressure 5. -/
theorem parse_alias_counterexample : ¬ parseMatchesStatedSpec := fun h =>
  absurd (h ("t0") exLine) (by with_unfolding_all decide)

/-- Witness for C6 (amended) at a concrete line. -/
theorem parse_characterization_witness :
    parseLine ("t0") exLine = specParseAmended ("t0") exLine :=
  parse_characterization ("t0") exLine
